import Mathlib

/-
  Verification development for the vizvolt-ingestion repository
  (single source file DeviceRaw.py): a polling ETL job that fetches
  device telemetry over HTTP, sanitizes the fields, inserts one row per
  device into a relational store, and serves a constant health endpoint.

  The Python source is shallowly embedded below.  Machine-level details
  that the claims do not touch (actual sockets, the SQL wire protocol,
  the database server) are abstracted into environment values; the
  control flow and data transformations of DeviceRaw.py are translated
  function by function.
-/

set_option maxRecDepth 16384

namespace Vizvolt

/-- JSON-like values as they arrive from the upstream API.  The sanitizer
only ever compares a value against `None` and four literal strings, so the
numeric payload is kept opaque as an integer; booleans and numbers are
never equal to `None` or to any string under Python equality. -/
inductive JVal where
  | null
  | str (s : String)
  | num (n : Int)
  | boolean (b : Bool)
deriving DecidableEq, Repr

/-- A parsed `datetime.datetime` value (naive local datetime). -/
structure DateTime where
  year : Nat
  month : Nat
  day : Nat
  hour : Nat
  minute : Nat
  second : Nat
  microsecond : Nat
deriving DecidableEq, Repr

/-- ASCII digit test, the `\d` class of the CPython `_strptime` regexes
(restricted to ASCII; non-ASCII digit codepoints are outside the model). -/
def isDig (c : Char) : Prop := 48 ≤ c.toNat ∧ c.toNat ≤ 57

instance (c : Char) : Decidable (isDig c) := by unfold isDig; infer_instance

/-- Numeric value of an ASCII digit character. -/
def dval (c : Char) : Nat := c.toNat - 48

/-- Value of a digit string, most significant digit first (what `int()`
returns on the matched group). -/
def digitsVal (cs : List Char) : Nat := cs.foldl (fun a c => a * 10 + dval c) 0

/-- Length of the leading run of ASCII digits. -/
def digitRun : List Char → Nat
  | [] => 0
  | c :: rest => if isDig c then digitRun rest + 1 else 0

/-- Whitespace class `\s` of the `_strptime` regexes (ASCII part; the
format string has its literal space replaced by `\s+`). -/
def isSpaceChar (c : Char) : Prop :=
  c.toNat = 32 ∨ c.toNat = 9 ∨ c.toNat = 10 ∨ c.toNat = 13 ∨ c.toNat = 11 ∨ c.toNat = 12

instance (c : Char) : Decidable (isSpaceChar c) := by unfold isSpaceChar; infer_instance

/-- Match a single literal character of the compiled format regex. -/
def lit (c : Char) (cs : List Char) : Option (List Char) :=
  match cs with
  | [] => none
  | x :: rest => if x = c then some rest else none

/-- Drop a run of whitespace characters. -/
def dropSpaces : List Char → List Char
  | [] => []
  | c :: rest => if isSpaceChar c then dropSpaces rest else c :: rest

/-- `\s+`: the literal space of the format becomes one-or-more whitespace
in `_strptime`; the following format element is a digit class, so greedy
consumption of the whole whitespace run is exact. -/
def spaces1 (cs : List Char) : Option (List Char) :=
  match cs with
  | [] => none
  | c :: rest => if isSpaceChar c then some (dropSpaces rest) else none

/-- First result of a backtracking alternation: try the candidates in
regex priority order, keep the first whose continuation succeeds. -/
def firstSome {α β : Type} (f : α → Option β) : List α → Option β
  | [] => none
  | a :: rest =>
    match f a with
    | some b => some b
    | none => firstSome f rest

/-- Candidates for `%m`, regex `1[0-2]|0[1-9]|[1-9]`, in priority order.
The two-character alternatives are written through `dval`: given both
characters are digits, `1[0-2]` is `dval c1 = 1 ∧ dval c2 ≤ 2` and
`0[1-9]` is `dval c1 = 0 ∧ 1 ≤ dval c2`. -/
def candm : List Char → List (Nat × List Char)
  | c1 :: c2 :: rest =>
    (if isDig c1 ∧ isDig c2 ∧ ((dval c1 = 1 ∧ dval c2 ≤ 2) ∨ (dval c1 = 0 ∧ 1 ≤ dval c2))
      then [(10 * dval c1 + dval c2, rest)] else []) ++
    (if isDig c1 ∧ 1 ≤ dval c1 then [(dval c1, c2 :: rest)] else [])
  | [c1] => if isDig c1 ∧ 1 ≤ dval c1 then [(dval c1, [])] else []
  | [] => []

/-- Candidates for `%d`, regex `3[01]|[12]\d|0[1-9]|[1-9]| [1-9]`. -/
def candd : List Char → List (Nat × List Char)
  | c1 :: c2 :: rest =>
    (if isDig c1 ∧ isDig c2 ∧
        ((dval c1 = 3 ∧ dval c2 ≤ 1) ∨ (1 ≤ dval c1 ∧ dval c1 ≤ 2) ∨
         (dval c1 = 0 ∧ 1 ≤ dval c2))
      then [(10 * dval c1 + dval c2, rest)] else []) ++
    (if isDig c1 ∧ 1 ≤ dval c1 then [(dval c1, c2 :: rest)] else []) ++
    (if c1.toNat = 32 ∧ isDig c2 ∧ 1 ≤ dval c2 then [(dval c2, rest)] else [])
  | [c1] => if isDig c1 ∧ 1 ≤ dval c1 then [(dval c1, [])] else []
  | [] => []

/-- Candidates for `%H`, regex `2[0-3]|[0-1]\d|\d`. -/
def candH : List Char → List (Nat × List Char)
  | c1 :: c2 :: rest =>
    (if isDig c1 ∧ isDig c2 ∧ ((dval c1 = 2 ∧ dval c2 ≤ 3) ∨ dval c1 ≤ 1)
      then [(10 * dval c1 + dval c2, rest)] else []) ++
    (if isDig c1 then [(dval c1, c2 :: rest)] else [])
  | [c1] => if isDig c1 then [(dval c1, [])] else []
  | [] => []

/-- Candidates for `%M`, regex `[0-5]\d|\d`. -/
def candM : List Char → List (Nat × List Char)
  | c1 :: c2 :: rest =>
    (if isDig c1 ∧ isDig c2 ∧ dval c1 ≤ 5
      then [(10 * dval c1 + dval c2, rest)] else []) ++
    (if isDig c1 then [(dval c1, c2 :: rest)] else [])
  | [c1] => if isDig c1 then [(dval c1, [])] else []
  | [] => []

/-- Candidates for `%S`, regex `6[0-1]|[0-5]\d|\d` (60 and 61 match the
regex; the later `datetime` construction rejects them). -/
def candS : List Char → List (Nat × List Char)
  | c1 :: c2 :: rest =>
    (if isDig c1 ∧ isDig c2 ∧ ((dval c1 = 6 ∧ dval c2 ≤ 1) ∨ dval c1 ≤ 5)
      then [(10 * dval c1 + dval c2, rest)] else []) ++
    (if isDig c1 then [(dval c1, c2 :: rest)] else [])
  | [c1] => if isDig c1 then [(dval c1, [])] else []
  | [] => []

/-- Candidates for `%f`, regex `[0-9]{1,6}` (greedy, longest first);
each candidate carries the matched value and digit count. -/
def candf (cs : List Char) : List ((Nat × Nat) × List Char) :=
  (List.range (min 6 (digitRun cs))).map
    (fun i =>
      ((digitsVal (cs.take (min 6 (digitRun cs) - i)), min 6 (digitRun cs) - i),
        cs.drop (min 6 (digitRun cs) - i)))

/-- Tail of the format after the second: literal dot, `%f`, end of input
(`_strptime` rejects the string when unconverted data remains).  The
fraction digits are right-padded with zeros to microseconds. -/
def fracStage (y mo d h mi s : Nat) (cs : List Char) : Option DateTime :=
  (lit '.' cs).bind (fun cs2 =>
    firstSome
      (fun c => if c.2 = [] then
          some ⟨y, mo, d, h, mi, s, c.1.1 * 10 ^ (6 - c.1.2)⟩
        else none)
      (candf cs2))

/-- `%S` then the fraction tail. -/
def secondStage (y mo d h mi : Nat) (cs : List Char) : Option DateTime :=
  firstSome (fun c => fracStage y mo d h mi c.1 c.2) (candS cs)

/-- Literal colon, `%M`, then the rest. -/
def minuteStage (y mo d h : Nat) (cs : List Char) : Option DateTime :=
  firstSome (fun c => (lit ':' c.2).bind (secondStage y mo d h c.1)) (candM cs)

/-- Literal colon after `%H` was already consumed by minuteStage caller;
here: `%H` then colon then the rest. -/
def hourStage (y mo d : Nat) (cs : List Char) : Option DateTime :=
  firstSome (fun c => (lit ':' c.2).bind (minuteStage y mo d c.1)) (candH cs)

/-- Whitespace then `%H:%M:%S.%f`. -/
def dayStage (y mo : Nat) (cs : List Char) : Option DateTime :=
  firstSome (fun c => (spaces1 c.2).bind (hourStage y mo c.1)) (candd cs)

/-- Literal hyphen then `%d` and the rest. -/
def monthStage (y : Nat) (cs : List Char) : Option DateTime :=
  firstSome (fun c => (lit '-' c.2).bind (dayStage y c.1)) (candm cs)

/-- The full regex for the format `%Y-%m-%d %H:%M:%S.%f`: `%Y` is exactly
four digits (`\d\d\d\d`), then the stages above. -/
def strptimeFmt (cs : List Char) : Option DateTime :=
  match cs with
  | c1 :: c2 :: c3 :: c4 :: rest =>
    if isDig c1 ∧ isDig c2 ∧ isDig c3 ∧ isDig c4 then
      (lit '-' rest).bind (monthStage (digitsVal [c1, c2, c3, c4]))
    else none
  | _ => none

/-- Gregorian leap-year rule used by `datetime`. -/
def isLeapYear (y : Nat) : Prop := y % 4 = 0 ∧ (y % 100 ≠ 0 ∨ y % 400 = 0)

instance (y : Nat) : Decidable (isLeapYear y) := by unfold isLeapYear; infer_instance

/-- Days in a month, as validated by the `datetime` constructor. -/
def daysInMonth (y m : Nat) : Nat :=
  if m = 2 then (if isLeapYear y then 29 else 28)
  else if m = 4 ∨ m = 6 ∨ m = 9 ∨ m = 11 then 30
  else 31

/-- `datetime.strptime(s, "%Y-%m-%d %H:%M:%S.%f")`: regex match of the
whole string followed by the range validation performed by the
`datetime(...)` constructor (which raises `ValueError`, modelled as
`none`, on out-of-range fields such as Feb 30 or second 61). -/
def pyStrptime (s : String) : Option DateTime :=
  (strptimeFmt s.toList).bind (fun t =>
    if 1 ≤ t.year ∧ t.year ≤ 9999 ∧ 1 ≤ t.month ∧ t.month ≤ 12 ∧
       1 ≤ t.day ∧ t.day ≤ daysInMonth t.year t.month ∧
       t.hour ≤ 23 ∧ t.minute ≤ 59 ∧ t.second ≤ 59 ∧ t.microsecond ≤ 999999
    then some t else none)

/-- The membership test `value in [None, "", "null", "NULL", "NA"]` of
DeviceRaw.py (Python equality: only `None` and those literal strings can
compare equal to the list elements). -/
def isSentinel (v : JVal) : Prop :=
  v = JVal.null ∨ v = JVal.str "" ∨ v = JVal.str "null" ∨
  v = JVal.str "NULL" ∨ v = JVal.str "NA"

instance (v : JVal) : Decidable (isSentinel v) := by unfold isSentinel; infer_instance

/-- `safe(value, default=0)` from DeviceRaw.py; every call site in the
source leaves `default` at its declared default `0`, passed here
explicitly as `JVal.num 0`. -/
def safe (value default : JVal) : JVal :=
  if isSentinel value then default else value

/-- `safe_timestamp(value)` from DeviceRaw.py: sentinel check, then
`datetime.strptime(value, "%Y-%m-%d %H:%M:%S.%f")` under a catch-all
`except` returning `None`; a non-string value makes `strptime` raise
`TypeError`, which the same `except` turns into `None`. -/
def safe_timestamp (value : JVal) : Option DateTime :=
  if isSentinel value then none
  else
    match value with
    | JVal.str s => pyStrptime s
    | _ => none

/-- Modelled from the spec: the fixed textual format
`YYYY-MM-DD HH:MM:SS.ffffff` read strictly (four-digit year, two-digit
zero-padded month, day, hour, minute and second, six fraction digits,
single separators), together with the ranges needed for the string to
denote a datetime instant.  This is the spec-side notion against which
the lenient source parser is compared. -/
def specFixedFormat? (s : String) : Option DateTime :=
  match s.toList with
  | [y1, y2, y3, y4, a1, m1, m2, a2, d1, d2, a3, h1, h2, a4, n1, n2, a5, p1, p2, a6,
     f1, f2, f3, f4, f5, f6] =>
    if a1 = '-' ∧ a2 = '-' ∧ a3 = ' ' ∧ a4 = ':' ∧ a5 = ':' ∧ a6 = '.' ∧
       isDig y1 ∧ isDig y2 ∧ isDig y3 ∧ isDig y4 ∧
       isDig m1 ∧ isDig m2 ∧ isDig d1 ∧ isDig d2 ∧
       isDig h1 ∧ isDig h2 ∧ isDig n1 ∧ isDig n2 ∧
       isDig p1 ∧ isDig p2 ∧
       isDig f1 ∧ isDig f2 ∧ isDig f3 ∧ isDig f4 ∧ isDig f5 ∧ isDig f6 ∧
       1 ≤ digitsVal [y1, y2, y3, y4] ∧
       1 ≤ 10 * dval m1 + dval m2 ∧ 10 * dval m1 + dval m2 ≤ 12 ∧
       1 ≤ 10 * dval d1 + dval d2 ∧
       10 * dval d1 + dval d2 ≤ daysInMonth (digitsVal [y1, y2, y3, y4]) (10 * dval m1 + dval m2) ∧
       10 * dval h1 + dval h2 ≤ 23 ∧
       10 * dval n1 + dval n2 ≤ 59 ∧
       10 * dval p1 + dval p2 ≤ 59
    then
      some ⟨digitsVal [y1, y2, y3, y4], 10 * dval m1 + dval m2, 10 * dval d1 + dval d2,
            10 * dval h1 + dval h2, 10 * dval n1 + dval n2, 10 * dval p1 + dval p2,
            digitsVal [f1, f2, f3, f4, f5, f6]⟩
    else none
  | _ => none

/-- Sanitized values as they are bound into the SQL insert: ordinary
fields pass through `safe`, the three timestamp-valued keys hold an
optional or definite datetime. -/
inductive SVal where
  | raw (v : JVal)
  | ts (d : Option DateTime)
deriving DecidableEq, Repr

/-- `device.get(k)` on a Python dict: the first binding wins (a Python
dict has unique keys) and a missing key yields `None`. -/
def getDefault (d : List (String × JVal)) (k : String) : JVal :=
  (List.lookup k d).getD JVal.null

/-- `data[k] = v` on a Python dict, represented as an association list:
an existing binding is replaced in place, otherwise the pair is appended. -/
def setKey {α : Type} (d : List (String × α)) (k : String) (v : α) : List (String × α) :=
  if d.any (fun kv => kv.1 == k) then
    d.map (fun kv => if kv.1 = k then (k, v) else kv)
  else d ++ [(k, v)]

/-- The normalization performed inside `upsert_device` (DeviceRaw.py
lines 85-92): the dict comprehension applying `safe` to every field, the
two timestamp overwrites from the original `device` mapping, and the
`created_at` stamp with the current local time. -/
def sanitize (device : List (String × JVal)) (now : DateTime) : List (String × SVal) :=
  setKey
    (setKey
      (setKey
        (device.map (fun kv => (kv.1, SVal.raw (safe kv.2 (JVal.num 0)))))
        "gpsiat" (SVal.ts (safe_timestamp (getDefault device "gpsiat"))))
      "bmsiat" (SVal.ts (safe_timestamp (getDefault device "bmsiat"))))
    "created_at" (SVal.ts (some now))

/-- The placeholder names of the INSERT statement in `upsert_device`,
in statement order; each `%(name)s` is looked up in the sanitized dict
when the statement is bound. -/
def requiredColumns : List String :=
  ["imei", "assetname", "gpsiat", "latitude", "longitude", "direction", "speed",
   "disttravelled_all", "disttravelled_today", "bmsiat", "cc", "voltage", "current", "soc",
   "maxvoltagecellvalue", "maxvltagecellnumber",
   "minvoltagecellvalue", "minvoltagecellnumber",
   "ChargeDischargeStatus", "ChargingCurrent", "dischargingcurrent", "DeviceStatus",
   "serial", "barcode",
   "cellVolt1", "cellVolt2", "cellVolt3", "cellVolt4", "cellVolt5", "cellVolt6",
   "cellVolt7", "cellVolt8", "cellVolt9", "cellVolt10", "cellVolt11", "cellVolt12",
   "cellVolt13", "cellVolt14", "cellVolt15", "cellVolt16",
   "cellTemp1", "cellTemp2", "cellTemp3", "cellTemp4", "cellTemp5", "cellTemp6",
   "cellTemp7", "cellTemp8", "cellTemp9", "cellTemp10", "cellTemp11", "cellTemp12",
   "cellTemp13", "cellTemp14", "cellTemp15", "cellTemp16",
   "charging", "avgrangekm", "maxrangekm", "minrangekm",
   "created_at"]

/-- `upsert_device(conn, device)`: sanitize, then bind every placeholder
of the INSERT from the sanitized dict.  A missing placeholder key makes
the parameter binding raise (KeyError), which the catch-all `except`
turns into a rollback, modelled as `none`; otherwise the committed row
(the bound values in statement order) is returned.  The function never
propagates an exception to the caller: the `except` clause logs and
rolls back, and the `finally` clause closes the cursor. -/
def upsert_device (device : List (String × JVal)) (now : DateTime) : Option (List SVal) :=
  requiredColumns.mapM (fun k => List.lookup k (sanitize device now))

/-- Abstract result of the HTTP POST in `fetch_api_data`: either the
transport raised, or a response with a status code and an optional JSON
object body (`none` when `res.json()` raises).  Only fields shaped like
the `data` field (a list of device objects) are modelled in the body. -/
structure ApiBody where
  fields : List (String × List (List (String × JVal)))
deriving DecidableEq, Repr

inductive FetchEnv where
  | transportError
  | response (status : Nat) (body : Option ApiBody)
deriving DecidableEq, Repr

inductive FetchErr where
  | transport
  | httpStatus (code : Nat)
  | badJson
deriving DecidableEq, Repr

/-- `fetch_api_data()` (DeviceRaw.py lines 66-75): POST, then
`res.raise_for_status()` (raises exactly for status codes 400-599), then
`res.json().get("data", [])`. -/
def fetch_api_data (env : FetchEnv) : Except FetchErr (List (List (String × JVal))) :=
  match env with
  | FetchEnv.transportError => Except.error FetchErr.transport
  | FetchEnv.response status body =>
    if 400 ≤ status ∧ status < 600 then Except.error (FetchErr.httpStatus status)
    else
      match body with
      | none => Except.error FetchErr.badJson
      | some b => Except.ok ((List.lookup "data" b.fields).getD [])

/-- Connection lifecycle events observable during one tick. -/
inductive ConnEvent where
  | opened
  | closed
deriving DecidableEq, Repr

/-- What one iteration of the `while True` loop produced: either the body
ran to completion with the per-device insert results, or an exception was
caught by the `except` clause at the tick boundary. -/
inductive TickOutcome where
  | processed (results : List (Option (List SVal)))
  | caught (e : FetchErr)
  | connCaught
deriving DecidableEq, Repr

structure TickResult where
  outcome : TickOutcome
  connEvents : List ConnEvent
  sleepSeconds : Nat
deriving DecidableEq, Repr

/-- Environment of one tick: either `get_db_connection()` raises, or a
connection is acquired and the fetch runs in the given fetch
environment. -/
inductive TickEnv where
  | connError
  | conn (f : FetchEnv)
deriving DecidableEq, Repr

/-- One iteration of `main`-s `while True` loop (DeviceRaw.py lines
155-167).  The `try` body opens the connection, fetches, upserts each
device in order and closes the connection; any exception in the body
jumps to the `except` clause, which only logs -- so a connection opened
before a failing fetch is never closed (there is no `finally`).  The
`time.sleep(10)` sits after the `try/except` and runs in every case. -/
def tick (env : TickEnv) (now : DateTime) : TickResult :=
  match env with
  | TickEnv.connError => ⟨TickOutcome.connCaught, [], 10⟩
  | TickEnv.conn f =>
    match fetch_api_data f with
    | Except.error e => ⟨TickOutcome.caught e, [ConnEvent.opened], 10⟩
    | Except.ok devices =>
      ⟨TickOutcome.processed (devices.map (fun d => upsert_device d now)),
       [ConnEvent.opened, ConnEvent.closed], 10⟩

/-- The loop itself, run over a schedule of tick environments: every
scheduled tick executes (no exception terminates the loop). -/
def mainLoop (envs : List (TickEnv × DateTime)) : List TickResult :=
  envs.map (fun e => tick e.1 e.2)

/-- An HTTP reply of the health endpoint. -/
structure HttpReply where
  status : Nat
  body : List (String × String)
deriving DecidableEq, Repr

/-- `health()` (DeviceRaw.py lines 13-15): the route handler takes no
input and reads no state; FastAPI wraps the returned dict in a 200
response. -/
def health (_u : Unit) : HttpReply :=
  ⟨200, [("status", "ok"), ("service", "vizvolt-ingestion")]⟩

/-! ### Helper lemmas -/

theorem firstSome_cons_some {α β : Type} {f : α → Option β} {a : α} {rest : List α} {b : β}
    (h : f a = some b) : firstSome f (a :: rest) = some b := by
  simp [firstSome, h]

theorem lookup_cons {β : Type} (k : String) (p : String × β) (l : List (String × β)) :
    List.lookup k (p :: l) = if p.1 = k then some p.2 else List.lookup k l := by
  obtain ⟨a, b⟩ := p
  by_cases h : a = k
  · subst h; simp [List.lookup]
  · have hb : (k == a) = false := beq_eq_false_iff_ne.mpr (Ne.symm h)
    simp [List.lookup, h, hb]

theorem lookup_map_snd {β γ : Type} (g : β → γ) (k : String) (l : List (String × β)) :
    List.lookup k (l.map (fun kv => (kv.1, g kv.2))) = (List.lookup k l).map g := by
  induction l with
  | nil => simp
  | cons a t ih =>
    by_cases h : a.1 = k <;> simp [lookup_cons, h, ih]

theorem lookup_replace_self {β : Type} (t : List (String × β)) (k : String) (v : β)
    (hany : t.any (fun kv => kv.1 == k) = true) :
    List.lookup k (t.map (fun kv => if kv.1 = k then (k, v) else kv)) = some v := by
  induction t with
  | nil => simp at hany
  | cons a t ih =>
    by_cases h : a.1 = k
    · simp [h, lookup_cons]
    · have hany2 : t.any (fun kv => kv.1 == k) = true := by
        simpa [List.any_cons, h] using hany
      simpa [h, lookup_cons] using ih hany2

theorem lookup_replace_ne {β : Type} (t : List (String × β)) (k k' : String) (v : β)
    (hne : k' ≠ k) :
    List.lookup k' (t.map (fun kv => if kv.1 = k then (k, v) else kv)) = List.lookup k' t := by
  induction t with
  | nil => simp
  | cons a t ih =>
    by_cases h : a.1 = k
    · have hk : ¬ k = k' := fun e => hne e.symm
      have hk2 : ¬ a.1 = k' := by rw [h]; exact hk
      simpa [h, lookup_cons, hk, hk2] using ih
    · by_cases h2 : a.1 = k'
      · simp [h, lookup_cons, h2, hne]
      · simpa [h, lookup_cons, h2] using ih

theorem lookup_append_self {β : Type} (t : List (String × β)) (k : String) (v : β)
    (hnone : ∀ p ∈ t, p.1 ≠ k) :
    List.lookup k (t ++ [(k, v)]) = some v := by
  induction t with
  | nil => simp [lookup_cons]
  | cons a t ih =>
    have h1 : a.1 ≠ k := hnone a (by simp)
    have ih2 := ih (fun p hp => hnone p (by simp [hp]))
    simpa [lookup_cons, h1] using ih2

theorem lookup_append_ne {β : Type} (t : List (String × β)) (k k' : String) (v : β)
    (hne : k' ≠ k) : List.lookup k' (t ++ [(k, v)]) = List.lookup k' t := by
  induction t with
  | nil =>
    have hb : (k' == k) = false := beq_eq_false_iff_ne.mpr hne
    simp [List.lookup, hb]
  | cons a t ih =>
    by_cases h3 : a.1 = k'
    · simp [lookup_cons, h3]
    · simpa [lookup_cons, h3] using ih

theorem lookup_setKey_self {β : Type} (d : List (String × β)) (k : String) (v : β) :
    List.lookup k (setKey d k v) = some v := by
  unfold setKey
  split
  case isTrue hany => exact lookup_replace_self d k v hany
  case isFalse hany =>
    apply lookup_append_self
    intro p hp he
    apply hany
    simp only [List.any_eq_true]
    exact ⟨p, hp, by simp [he]⟩

theorem lookup_setKey_ne {β : Type} (d : List (String × β)) (k k' : String) (v : β)
    (hne : k' ≠ k) : List.lookup k' (setKey d k v) = List.lookup k' d := by
  unfold setKey
  split
  case isTrue => exact lookup_replace_ne d k k' v hne
  case isFalse => exact lookup_append_ne d k k' v hne

theorem sanitize_lookup_created (device : List (String × JVal)) (now : DateTime) :
    List.lookup "created_at" (sanitize device now) = some (SVal.ts (some now)) := by
  unfold sanitize
  exact lookup_setKey_self _ _ _

theorem sanitize_lookup_bmsiat (device : List (String × JVal)) (now : DateTime) :
    List.lookup "bmsiat" (sanitize device now) =
      some (SVal.ts (safe_timestamp (getDefault device "bmsiat"))) := by
  unfold sanitize
  rw [lookup_setKey_ne _ _ _ _ (by decide)]
  exact lookup_setKey_self _ _ _

theorem sanitize_lookup_gpsiat (device : List (String × JVal)) (now : DateTime) :
    List.lookup "gpsiat" (sanitize device now) =
      some (SVal.ts (safe_timestamp (getDefault device "gpsiat"))) := by
  unfold sanitize
  rw [lookup_setKey_ne _ _ _ _ (by decide), lookup_setKey_ne _ _ _ _ (by decide)]
  exact lookup_setKey_self _ _ _

theorem sanitize_lookup_other (device : List (String × JVal)) (now : DateTime) (k : String)
    (h1 : k ≠ "gpsiat") (h2 : k ≠ "bmsiat") (h3 : k ≠ "created_at") :
    List.lookup k (sanitize device now) =
      (List.lookup k device).map (fun v => SVal.raw (safe v (JVal.num 0))) := by
  unfold sanitize
  rw [lookup_setKey_ne _ _ _ _ h3, lookup_setKey_ne _ _ _ _ h2, lookup_setKey_ne _ _ _ _ h1]
  exact lookup_map_snd (fun v => SVal.raw (safe v (JVal.num 0))) k device

theorem mapM_eq_none_of_mem {α β : Type} {f : α → Option β} {l : List α} {a : α}
    (ha : a ∈ l) (hf : f a = none) : l.mapM f = none := by
  induction l with
  | nil => simp at ha
  | cons x t ih =>
    rw [List.mapM_cons]
    rcases List.mem_cons.mp ha with h | h
    · subst h
      rw [hf]
      rfl
    · cases hx : f x with
      | none => rfl
      | some b =>
        have ht := ih h
        simp only [Option.bind_eq_bind, Option.some_bind, Option.bind_some, ht]
        rfl

theorem mapM_some_mem {α β : Type} {f : α → Option β} {l : List α} {r : List β} {a : α}
    (hr : l.mapM f = some r) (ha : a ∈ l) : ∃ b, f a = some b ∧ b ∈ r := by
  induction l generalizing r with
  | nil => simp at ha
  | cons x t ih =>
    rw [List.mapM_cons] at hr
    cases hx : f x with
    | none =>
      rw [hx] at hr
      exact absurd hr (by simp)
    | some b =>
      rw [hx] at hr
      cases ht : t.mapM f with
      | none =>
        rw [ht] at hr
        exact absurd hr (by simp)
      | some rt =>
        rw [ht] at hr
        have hrr : r = b :: rt := by
          have hcopy := hr
          simp only [Option.bind_eq_bind, Option.some_bind] at hcopy
          simpa using hcopy.symm
        subst hrr
        rcases List.mem_cons.mp ha with h | h
        · subst h
          exact ⟨b, hx, by simp⟩
        · obtain ⟨b2, hb2, hmem⟩ := ih ht h
          exact ⟨b2, hb2, by simp [hmem]⟩

theorem dval_le_nine {c : Char} (h : isDig c) : dval c ≤ 9 := by
  obtain ⟨a, b⟩ := h
  unfold dval
  omega

theorem not_space_of_dig {c : Char} (h : isDig c) : ¬ isSpaceChar c := by
  obtain ⟨a, b⟩ := h
  intro hs
  rcases hs with h1 | h1 | h1 | h1 | h1 | h1 <;> omega

theorem lit_self (c : Char) (rest : List Char) : lit c (c :: rest) = some rest := by
  simp [lit]

theorem daysInMonth_le_31 (y m : Nat) : daysInMonth y m ≤ 31 := by
  unfold daysInMonth
  split_ifs <;> omega

theorem candm_head (c1 c2 : Char) (rest : List Char) (h1 : isDig c1) (h2 : isDig c2)
    (hlo : 1 ≤ 10 * dval c1 + dval c2) (hhi : 10 * dval c1 + dval c2 ≤ 12) :
    ∃ t, candm (c1 :: c2 :: rest) = (10 * dval c1 + dval c2, rest) :: t := by
  have hb1 := dval_le_nine h1
  have hb2 := dval_le_nine h2
  refine ⟨if isDig c1 ∧ 1 ≤ dval c1 then [(dval c1, c2 :: rest)] else [], ?_⟩
  have hP : isDig c1 ∧ isDig c2 ∧ ((dval c1 = 1 ∧ dval c2 ≤ 2) ∨ (dval c1 = 0 ∧ 1 ≤ dval c2)) := ⟨h1, h2, by omega⟩
  simp only [candm]
  rw [if_pos hP, List.singleton_append]

theorem candd_head (c1 c2 : Char) (rest : List Char) (h1 : isDig c1) (h2 : isDig c2)
    (hlo : 1 ≤ 10 * dval c1 + dval c2) (hhi : 10 * dval c1 + dval c2 ≤ 31) :
    ∃ t, candd (c1 :: c2 :: rest) = (10 * dval c1 + dval c2, rest) :: t := by
  have hb1 := dval_le_nine h1
  have hb2 := dval_le_nine h2
  refine ⟨(if isDig c1 ∧ 1 ≤ dval c1 then [(dval c1, c2 :: rest)] else []) ++
    (if c1.toNat = 32 ∧ isDig c2 ∧ 1 ≤ dval c2 then [(dval c2, rest)] else []), ?_⟩
  have hP : isDig c1 ∧ isDig c2 ∧ ((dval c1 = 3 ∧ dval c2 ≤ 1) ∨ (1 ≤ dval c1 ∧ dval c1 ≤ 2) ∨ (dval c1 = 0 ∧ 1 ≤ dval c2)) := ⟨h1, h2, by omega⟩
  simp only [candd]
  rw [if_pos hP, List.singleton_append, List.cons_append]

theorem candH_head (c1 c2 : Char) (rest : List Char) (h1 : isDig c1) (h2 : isDig c2)
    (hhi : 10 * dval c1 + dval c2 ≤ 23) :
    ∃ t, candH (c1 :: c2 :: rest) = (10 * dval c1 + dval c2, rest) :: t := by
  have hb1 := dval_le_nine h1
  have hb2 := dval_le_nine h2
  refine ⟨if isDig c1 then [(dval c1, c2 :: rest)] else [], ?_⟩
  have hP : isDig c1 ∧ isDig c2 ∧ ((dval c1 = 2 ∧ dval c2 ≤ 3) ∨ dval c1 ≤ 1) := ⟨h1, h2, by omega⟩
  simp only [candH]
  rw [if_pos hP, List.singleton_append]

theorem candM_head (c1 c2 : Char) (rest : List Char) (h1 : isDig c1) (h2 : isDig c2)
    (hhi : 10 * dval c1 + dval c2 ≤ 59) :
    ∃ t, candM (c1 :: c2 :: rest) = (10 * dval c1 + dval c2, rest) :: t := by
  have hb1 := dval_le_nine h1
  have hb2 := dval_le_nine h2
  refine ⟨if isDig c1 then [(dval c1, c2 :: rest)] else [], ?_⟩
  have hP : isDig c1 ∧ isDig c2 ∧ dval c1 ≤ 5 := ⟨h1, h2, by omega⟩
  simp only [candM]
  rw [if_pos hP, List.singleton_append]

theorem candS_head (c1 c2 : Char) (rest : List Char) (h1 : isDig c1) (h2 : isDig c2)
    (hhi : 10 * dval c1 + dval c2 ≤ 59) :
    ∃ t, candS (c1 :: c2 :: rest) = (10 * dval c1 + dval c2, rest) :: t := by
  have hb1 := dval_le_nine h1
  have hb2 := dval_le_nine h2
  refine ⟨if isDig c1 then [(dval c1, c2 :: rest)] else [], ?_⟩
  have hP : isDig c1 ∧ isDig c2 ∧ ((dval c1 = 6 ∧ dval c2 ≤ 1) ∨ dval c1 ≤ 5) := ⟨h1, h2, by omega⟩
  simp only [candS]
  rw [if_pos hP, List.singleton_append]

theorem candf_six (f1 f2 f3 f4 f5 f6 : Char) (h1 : isDig f1) (h2 : isDig f2)
    (h3 : isDig f3) (h4 : isDig f4) (h5 : isDig f5) (h6 : isDig f6) :
    ∃ t, candf [f1, f2, f3, f4, f5, f6] =
      ((digitsVal [f1, f2, f3, f4, f5, f6], 6), ([] : List Char)) :: t := by
  have hrun : digitRun [f1, f2, f3, f4, f5, f6] = 6 := by
    simp [digitRun, h1, h2, h3, h4, h5, h6]
  refine ⟨[((digitsVal [f1, f2, f3, f4, f5], 5), [f6]),
          ((digitsVal [f1, f2, f3, f4], 4), [f5, f6]),
          ((digitsVal [f1, f2, f3], 3), [f4, f5, f6]),
          ((digitsVal [f1, f2], 2), [f3, f4, f5, f6]),
          ((digitsVal [f1], 1), [f2, f3, f4, f5, f6])], ?_⟩
  unfold candf
  rw [hrun]
  rfl

theorem spaces1_digit (c : Char) (rest : List Char) (h : isDig c) :
    spaces1 (' ' :: c :: rest) = some (c :: rest) := by
  have hsp : isSpaceChar ' ' := by decide
  have hns : ¬ isSpaceChar c := not_space_of_dig h
  simp [spaces1, dropSpaces, hsp, hns]

theorem strict_format_parses (s : String) (dt : DateTime)
    (h : specFixedFormat? s = some dt) : safe_timestamp (JVal.str s) = some dt := by
  unfold specFixedFormat? at h
  split at h
  case _ y1 y2 y3 y4 a1 m1 m2 a2 d1 d2 a3 h1 h2 a4 n1 n2 a5 p1 p2 a6 f1 f2 f3 f4 f5 f6 heq =>
    split_ifs at h with hc
    obtain ⟨ha1, ha2, ha3, ha4, ha5, ha6, hy1, hy2, hy3, hy4, hm1, hm2, hd1, hd2,
      hh1, hh2, hn1, hn2, hp1, hp2, hf1, hf2, hf3, hf4, hf5, hf6,
      hyr, hmlo, hmhi, hdlo, hdhi, hhhi, hnhi, hphi⟩ := hc
    injection h with hdt
    subst hdt
    subst ha1; subst ha2; subst ha3; subst ha4; subst ha5; subst ha6
    have hlen : s.toList.length = 26 := by rw [heq]; rfl
    have hsent : ¬ isSentinel (JVal.str s) := by
      intro hs
      rcases hs with hs | hs | hs | hs | hs
      · exact JVal.noConfusion hs
      · injection hs with hs2
        rw [hs2] at hlen
        exact absurd hlen (by decide)
      · injection hs with hs2
        rw [hs2] at hlen
        exact absurd hlen (by decide)
      · injection hs with hs2
        rw [hs2] at hlen
        exact absurd hlen (by decide)
      · injection hs with hs2
        rw [hs2] at hlen
        exact absurd hlen (by decide)
    have hred : safe_timestamp (JVal.str s) = pyStrptime s := by
      simp [safe_timestamp, hsent]
    rw [hred]
    obtain ⟨t6, ht6⟩ := candf_six f1 f2 f3 f4 f5 f6 hf1 hf2 hf3 hf4 hf5 hf6
    have hfrac : fracStage (digitsVal [y1, y2, y3, y4]) (10 * dval m1 + dval m2)
        (10 * dval d1 + dval d2) (10 * dval h1 + dval h2) (10 * dval n1 + dval n2)
        (10 * dval p1 + dval p2) ('.' :: [f1, f2, f3, f4, f5, f6]) =
        some ⟨digitsVal [y1, y2, y3, y4], 10 * dval m1 + dval m2, 10 * dval d1 + dval d2,
              10 * dval h1 + dval h2, 10 * dval n1 + dval n2, 10 * dval p1 + dval p2,
              digitsVal [f1, f2, f3, f4, f5, f6]⟩ := by
      unfold fracStage
      rw [lit_self]
      simp only [Option.some_bind]
      rw [ht6]
      apply firstSome_cons_some
      simp
    obtain ⟨t5, ht5⟩ := candS_head p1 p2 ('.' :: [f1, f2, f3, f4, f5, f6]) hp1 hp2 hphi
    have hsec : secondStage (digitsVal [y1, y2, y3, y4]) (10 * dval m1 + dval m2)
        (10 * dval d1 + dval d2) (10 * dval h1 + dval h2) (10 * dval n1 + dval n2)
        (p1 :: p2 :: '.' :: [f1, f2, f3, f4, f5, f6]) =
        some ⟨digitsVal [y1, y2, y3, y4], 10 * dval m1 + dval m2, 10 * dval d1 + dval d2,
              10 * dval h1 + dval h2, 10 * dval n1 + dval n2, 10 * dval p1 + dval p2,
              digitsVal [f1, f2, f3, f4, f5, f6]⟩ := by
      unfold secondStage
      rw [ht5]
      exact firstSome_cons_some hfrac
    obtain ⟨t4, ht4⟩ := candM_head n1 n2 (':' :: p1 :: p2 :: '.' :: [f1, f2, f3, f4, f5, f6])
      hn1 hn2 hnhi
    have hmin : minuteStage (digitsVal [y1, y2, y3, y4]) (10 * dval m1 + dval m2)
        (10 * dval d1 + dval d2) (10 * dval h1 + dval h2)
        (n1 :: n2 :: ':' :: p1 :: p2 :: '.' :: [f1, f2, f3, f4, f5, f6]) =
        some ⟨digitsVal [y1, y2, y3, y4], 10 * dval m1 + dval m2, 10 * dval d1 + dval d2,
              10 * dval h1 + dval h2, 10 * dval n1 + dval n2, 10 * dval p1 + dval p2,
              digitsVal [f1, f2, f3, f4, f5, f6]⟩ := by
      unfold minuteStage
      rw [ht4]
      apply firstSome_cons_some
      beta_reduce
      rw [lit_self]
      simp only [Option.some_bind]
      exact hsec
    obtain ⟨t3, ht3⟩ := candH_head h1 h2
      (':' :: n1 :: n2 :: ':' :: p1 :: p2 :: '.' :: [f1, f2, f3, f4, f5, f6]) hh1 hh2 hhhi
    have hhour : hourStage (digitsVal [y1, y2, y3, y4]) (10 * dval m1 + dval m2)
        (10 * dval d1 + dval d2)
        (h1 :: h2 :: ':' :: n1 :: n2 :: ':' :: p1 :: p2 :: '.' :: [f1, f2, f3, f4, f5, f6]) =
        some ⟨digitsVal [y1, y2, y3, y4], 10 * dval m1 + dval m2, 10 * dval d1 + dval d2,
              10 * dval h1 + dval h2, 10 * dval n1 + dval n2, 10 * dval p1 + dval p2,
              digitsVal [f1, f2, f3, f4, f5, f6]⟩ := by
      unfold hourStage
      rw [ht3]
      apply firstSome_cons_some
      beta_reduce
      rw [lit_self]
      simp only [Option.some_bind]
      exact hmin
    obtain ⟨t2, ht2⟩ := candd_head d1 d2
      (' ' :: h1 :: h2 :: ':' :: n1 :: n2 :: ':' :: p1 :: p2 :: '.' :: [f1, f2, f3, f4, f5, f6])
      hd1 hd2 hdlo (le_trans hdhi (daysInMonth_le_31 _ _))
    have hday : dayStage (digitsVal [y1, y2, y3, y4]) (10 * dval m1 + dval m2)
        (d1 :: d2 :: ' ' :: h1 :: h2 :: ':' :: n1 :: n2 :: ':' :: p1 :: p2 :: '.' ::
          [f1, f2, f3, f4, f5, f6]) =
        some ⟨digitsVal [y1, y2, y3, y4], 10 * dval m1 + dval m2, 10 * dval d1 + dval d2,
              10 * dval h1 + dval h2, 10 * dval n1 + dval n2, 10 * dval p1 + dval p2,
              digitsVal [f1, f2, f3, f4, f5, f6]⟩ := by
      unfold dayStage
      rw [ht2]
      apply firstSome_cons_some
      beta_reduce
      rw [spaces1_digit h1 _ hh1]
      simp only [Option.some_bind]
      exact hhour
    obtain ⟨t1, ht1⟩ := candm_head m1 m2
      ('-' :: d1 :: d2 :: ' ' :: h1 :: h2 :: ':' :: n1 :: n2 :: ':' :: p1 :: p2 :: '.' ::
        [f1, f2, f3, f4, f5, f6]) hm1 hm2 hmlo hmhi
    have hmon : monthStage (digitsVal [y1, y2, y3, y4])
        (m1 :: m2 :: '-' :: d1 :: d2 :: ' ' :: h1 :: h2 :: ':' :: n1 :: n2 :: ':' :: p1 :: p2 ::
          '.' :: [f1, f2, f3, f4, f5, f6]) =
        some ⟨digitsVal [y1, y2, y3, y4], 10 * dval m1 + dval m2, 10 * dval d1 + dval d2,
              10 * dval h1 + dval h2, 10 * dval n1 + dval n2, 10 * dval p1 + dval p2,
              digitsVal [f1, f2, f3, f4, f5, f6]⟩ := by
      unfold monthStage
      rw [ht1]
      apply firstSome_cons_some
      beta_reduce
      rw [lit_self]
      simp only [Option.some_bind]
      exact hday
    have hY4 : isDig y1 ∧ isDig y2 ∧ isDig y3 ∧ isDig y4 := ⟨hy1, hy2, hy3, hy4⟩
    have hfmt : strptimeFmt
        (y1 :: y2 :: y3 :: y4 :: '-' :: m1 :: m2 :: '-' :: d1 :: d2 :: ' ' :: h1 :: h2 :: ':' ::
          n1 :: n2 :: ':' :: p1 :: p2 :: '.' :: [f1, f2, f3, f4, f5, f6]) =
        some ⟨digitsVal [y1, y2, y3, y4], 10 * dval m1 + dval m2, 10 * dval d1 + dval d2,
              10 * dval h1 + dval h2, 10 * dval n1 + dval n2, 10 * dval p1 + dval p2,
              digitsVal [f1, f2, f3, f4, f5, f6]⟩ := by
      simp only [strptimeFmt]
      rw [if_pos hY4, lit_self]
      simp only [Option.some_bind]
      exact hmon
    have h9999 : digitsVal [y1, y2, y3, y4] ≤ 9999 := by
      have e : digitsVal [y1, y2, y3, y4] =
          ((dval y1 * 10 + dval y2) * 10 + dval y3) * 10 + dval y4 := by
        simp [digitsVal]
      have b1 := dval_le_nine hy1
      have b2 := dval_le_nine hy2
      have b3 := dval_le_nine hy3
      have b4 := dval_le_nine hy4
      omega
    have hmu : digitsVal [f1, f2, f3, f4, f5, f6] ≤ 999999 := by
      have e : digitsVal [f1, f2, f3, f4, f5, f6] =
          ((((dval f1 * 10 + dval f2) * 10 + dval f3) * 10 + dval f4) * 10 + dval f5) * 10 +
            dval f6 := by
        simp [digitsVal]
      have b1 := dval_le_nine hf1
      have b2 := dval_le_nine hf2
      have b3 := dval_le_nine hf3
      have b4 := dval_le_nine hf4
      have b5 := dval_le_nine hf5
      have b6 := dval_le_nine hf6
      omega
    unfold pyStrptime
    rw [heq, hfmt]
    simp only [Option.some_bind]
    exact if_pos ⟨hyr, h9999, hmlo, hmhi, hdlo, hdhi, hhhi, hnhi, hphi, hmu⟩
  case _ => exact absurd h (by simp)

/-- A fixed concrete ingestion instant used by concrete evaluations. -/
def now0 : DateTime := ⟨2024, 1, 1, 0, 0, 0, 0⟩

/-- A device record carrying every column named by the INSERT statement. -/
def fullDevice : List (String × JVal) := requiredColumns.map (fun k => (k, JVal.num 1))

/-- The row produced by upserting `fullDevice` at `now0`. -/
def row0 : List SVal := (upsert_device fullDevice now0).getD []

/-! ### Claim theorems -/

/-- Claim C1, counterexample: the claim says a sentinel value in any field
other than gpsiat and bmsiat is replaced by the numeric default 0, but a
sentinel in a field named created_at is instead overwritten with the
ingestion instant by the unconditional `data["created_at"] = datetime.now()`
assignment. -/
theorem sentinel_fields_claim_cex :
    isSentinel (JVal.str "NA") ∧
    List.lookup "created_at" (sanitize [("created_at", JVal.str "NA")] now0) =
      some (SVal.ts (some now0)) ∧
    List.lookup "created_at" (sanitize [("created_at", JVal.str "NA")] now0) ≠
      some (SVal.raw (JVal.num 0)) := by
  refine ⟨by decide, by decide, by decide⟩

/-- Claim C1 (amended): a field of the raw record holding one of the
sentinel forms (None, "", "null", "NULL", "NA") is replaced by the numeric
default 0 when the field is none of gpsiat, bmsiat and created_at; a
sentinel gpsiat or bmsiat becomes the absent value; an input created_at
field is overwritten with the ingestion instant regardless of its value. -/
theorem sentinel_fields_normalized (device : List (String × JVal)) (now : DateTime)
    (k : String) (v : JVal) (hget : List.lookup k device = some v) (hs : isSentinel v) :
    (k ≠ "gpsiat" → k ≠ "bmsiat" → k ≠ "created_at" →
       List.lookup k (sanitize device now) = some (SVal.raw (JVal.num 0))) ∧
    (k = "gpsiat" ∨ k = "bmsiat" →
       List.lookup k (sanitize device now) = some (SVal.ts none)) ∧
    (k = "created_at" →
       List.lookup k (sanitize device now) = some (SVal.ts (some now))) := by
  refine ⟨fun h1 h2 h3 => ?_, fun hk => ?_, fun hk => ?_⟩
  · rw [sanitize_lookup_other device now k h1 h2 h3, hget]
    simp [safe, hs]
  · rcases hk with hk | hk
    · subst hk
      rw [sanitize_lookup_gpsiat]
      simp [getDefault, hget, safe_timestamp, hs]
    · subst hk
      rw [sanitize_lookup_bmsiat]
      simp [getDefault, hget, safe_timestamp, hs]
  · subst hk
    exact sanitize_lookup_created device now

/-- Claim C1 witness: a sentinel voltage field is normalized to 0. -/
theorem sentinel_fields_normalized_w :
    List.lookup "voltage" (sanitize [("voltage", JVal.null)] now0) =
      some (SVal.raw (JVal.num 0)) :=
  (sentinel_fields_normalized [("voltage", JVal.null)] now0 "voltage" JVal.null
    (by rfl) (by decide)).1 (by decide) (by decide) (by decide)

/-- Claim C2, counterexample: the claim says every input other than a
string matching the fixed textual format YYYY-MM-DD HH:MM:SS.ffffff
yields the absent value, but Python strptime is lenient: the string
2024-1-1 0:0:0.1 does not match the fixed 26-character format, yet the
sanitizer parses it to a datetime instead of returning None (unpadded
fields and 1-5 fraction digits are accepted). -/
theorem timestamp_parser_claim_cex :
    specFixedFormat? "2024-1-1 0:0:0.1" = none ∧
    safe_timestamp (JVal.str "2024-1-1 0:0:0.1") =
      some ⟨2024, 1, 1, 0, 0, 0, 100000⟩ := by
  refine ⟨by rfl, by rfl⟩

/-- Claim C2 (amended): a string matching the fixed textual format
YYYY-MM-DD HH:MM:SS.ffffff parses to exactly the instant it denotes;
sentinel and non-string inputs, and strings the (lenient) strptime
rejects, yield the absent value None, never 0; but some strings outside
the strict format (unpadded fields, short fractions) also parse. -/
theorem timestamp_parser_correct :
    (∀ s dt, specFixedFormat? s = some dt → safe_timestamp (JVal.str s) = some dt) ∧
    (∀ v, (isSentinel v ∨ ∀ t, v ≠ JVal.str t) → safe_timestamp v = none) ∧
    (∀ s, pyStrptime s = none → safe_timestamp (JVal.str s) = none) := by
  refine ⟨fun s dt h => strict_format_parses s dt h, fun v hv => ?_, fun s hnone => ?_⟩
  · rcases hv with hs | hns
    · simp [safe_timestamp, hs]
    · cases v with
      | null => simp [safe_timestamp, isSentinel]
      | str t => exact absurd rfl (hns t)
      | num n => simp [safe_timestamp, isSentinel]
      | boolean b => simp [safe_timestamp, isSentinel]
  · by_cases hs : isSentinel (JVal.str s)
    · simp [safe_timestamp, hs]
    · simp [safe_timestamp, hs, hnone]

/-- Claim C2 witness: a canonical fixed-format string parses to its
exact instant. -/
theorem timestamp_parser_correct_w :
    specFixedFormat? "2024-01-01 10:00:00.000000" = some ⟨2024, 1, 1, 10, 0, 0, 0⟩ ∧
    safe_timestamp (JVal.str "2024-01-01 10:00:00.000000") =
      some ⟨2024, 1, 1, 10, 0, 0, 0⟩ :=
  ⟨by rfl, timestamp_parser_correct.1 "2024-01-01 10:00:00.000000"
    ⟨2024, 1, 1, 10, 0, 0, 0⟩ (by rfl)⟩

/-- Claim C3, counterexample: the claim says a record missing a
non-timestamp source field is still inserted with the field defaulted to
0, but the sanitized dict simply lacks the key, so binding the INSERT
parameters raises and the row is rolled back (`upsert_device` result
`none`), not inserted. -/
theorem missing_column_claim_cex :
    List.lookup "voltage" [("imei", JVal.str "123")] = none ∧
    upsert_device [("imei", JVal.str "123")] now0 = none := by
  refine ⟨by rfl, by rfl⟩

/-- Claim C3 (amended): when a field named by the INSERT statement, other
than gpsiat, bmsiat and created_at, is missing from the raw record, the
sanitized mapping lacks that key entirely (it is not defaulted to 0), the
parameter binding fails, and the row is rolled back rather than inserted;
processing then continues with the next device. -/
theorem missing_column_rolls_back (device : List (String × JVal)) (now : DateTime)
    (k : String) (hk : k ∈ requiredColumns)
    (h1 : k ≠ "gpsiat") (h2 : k ≠ "bmsiat") (h3 : k ≠ "created_at")
    (hmiss : List.lookup k device = none) :
    List.lookup k (sanitize device now) = none ∧ upsert_device device now = none := by
  have hsan : List.lookup k (sanitize device now) = none := by
    rw [sanitize_lookup_other device now k h1 h2 h3, hmiss]
    rfl
  exact ⟨hsan, mapM_eq_none_of_mem hk hsan⟩

/-- Claim C3 witness: a record containing only an imei is rolled back. -/
theorem missing_column_rolls_back_w :
    List.lookup "voltage" (sanitize [("imei", JVal.str "123")] now0) = none ∧
    upsert_device [("imei", JVal.str "123")] now0 = none :=
  missing_column_rolls_back [("imei", JVal.str "123")] now0 "voltage"
    (by decide) (by decide) (by decide) (by decide) (by rfl)

/-- Claim C4: a fetched response with N device records leads to exactly N
insert attempts, one per record in API order; each attempt is the
upsert of its own record only (a rolled-back record i, result `none`,
leaves the attempt for record i+1 in place). -/
theorem one_insert_attempt_per_record (f : FetchEnv)
    (devices : List (List (String × JVal))) (now : DateTime)
    (h : fetch_api_data f = Except.ok devices) :
    tick (TickEnv.conn f) now =
      ⟨TickOutcome.processed (devices.map (fun d => upsert_device d now)),
       [ConnEvent.opened, ConnEvent.closed], 10⟩ ∧
    (devices.map (fun d => upsert_device d now)).length = devices.length ∧
    ∀ i : Nat, (devices.map (fun d => upsert_device d now))[i]? =
      (devices[i]?).map (fun d => upsert_device d now) := by
  refine ⟨by simp [tick, h], by simp, fun i => ?_⟩
  exact List.getElem?_map (fun d => upsert_device d now) devices i

/-- Claim C4 witness: a one-record response produces exactly the one
insert attempt for that record. -/
theorem one_insert_attempt_per_record_w :
    tick (TickEnv.conn (FetchEnv.response 200
        (some ⟨[("data", [[("imei", JVal.str "123")]])]⟩))) now0 =
      ⟨TickOutcome.processed
         (List.map (fun d => upsert_device d now0) [[("imei", JVal.str "123")]]),
       [ConnEvent.opened, ConnEvent.closed], 10⟩ :=
  (one_insert_attempt_per_record
    (FetchEnv.response 200 (some ⟨[("data", [[("imei", JVal.str "123")]])]⟩))
    [[("imei", JVal.str "123")]] now0 (by rfl)).1

/-- Claim C5: every exception inside a tick is caught at the tick
boundary (the tick yields a caught outcome instead of terminating the
loop), and the sleep that follows the tick is the same fixed 10 seconds
whether the tick succeeded or failed; the loop processes every scheduled
tick. -/
theorem tick_errors_caught_fixed_sleep :
    (∀ f now e, fetch_api_data f = Except.error e →
       tick (TickEnv.conn f) now = ⟨TickOutcome.caught e, [ConnEvent.opened], 10⟩) ∧
    (∀ now, tick TickEnv.connError now = ⟨TickOutcome.connCaught, [], 10⟩) ∧
    (∀ env now, (tick env now).sleepSeconds = 10) ∧
    (∀ envs, (mainLoop envs).length = envs.length) := by
  refine ⟨fun f now e h => by simp [tick, h], fun now => rfl, fun env now => ?_, fun envs => by simp [mainLoop]⟩
  cases env with
  | connError => rfl
  | conn f => cases h : fetch_api_data f <;> simp [tick, h]

/-- Claim C5 witness: a transport failure is caught and followed by the
fixed 10-second sleep. -/
theorem tick_errors_caught_fixed_sleep_w :
    tick (TickEnv.conn FetchEnv.transportError) now0 =
      ⟨TickOutcome.caught FetchErr.transport, [ConnEvent.opened], 10⟩ :=
  tick_errors_caught_fixed_sleep.1 FetchEnv.transportError now0 FetchErr.transport (by rfl)

/-- Claim C6, counterexample: the claim says the connection a tick opens
is closed before the tick ends even when the fetch raises, but the loop
body has no finally clause: in a tick whose fetch raises after the
connection was opened, `conn.close()` is never reached. -/
theorem conn_closed_claim_cex :
    ConnEvent.opened ∈ (tick (TickEnv.conn FetchEnv.transportError) now0).connEvents ∧
    ConnEvent.closed ∉ (tick (TickEnv.conn FetchEnv.transportError) now0).connEvents := by
  refine ⟨by decide, by decide⟩

/-- Claim C6 (amended): a tick whose body runs to completion closes the
connection it opened before sleeping; but a tick whose fetch raises after
the connection was opened leaves that connection unclosed (there is no
finally clause), and a tick whose connection acquisition raises opens
nothing. -/
theorem conn_closed_only_on_clean_tick :
    (∀ f devices now, fetch_api_data f = Except.ok devices →
       (tick (TickEnv.conn f) now).connEvents = [ConnEvent.opened, ConnEvent.closed]) ∧
    (∀ f e now, fetch_api_data f = Except.error e →
       (tick (TickEnv.conn f) now).connEvents = [ConnEvent.opened] ∧
       ConnEvent.closed ∉ (tick (TickEnv.conn f) now).connEvents) ∧
    (∀ now, (tick TickEnv.connError now).connEvents = []) := by
  refine ⟨fun f devices now h => by simp [tick, h],
          fun f e now h => ⟨by simp [tick, h], by simp [tick, h]⟩,
          fun now => rfl⟩

/-- Claim C6 witness: a clean empty tick opens and closes its
connection. -/
theorem conn_closed_only_on_clean_tick_w :
    (tick (TickEnv.conn (FetchEnv.response 200 (some ⟨[]⟩))) now0).connEvents =
      [ConnEvent.opened, ConnEvent.closed] :=
  conn_closed_only_on_clean_tick.1 (FetchEnv.response 200 (some ⟨[]⟩)) [] now0 (by rfl)

/-- Claim C7: `safe` is the identity on every non-sentinel value: no
type coercion, range check or other transformation is applied. -/
theorem safe_identity_on_non_sentinel (value default : JVal)
    (h : ¬ isSentinel value) : safe value default = value :=
  if_neg h

/-- Claim C7 witness: a non-sentinel string passes through unchanged. -/
theorem safe_identity_on_non_sentinel_w :
    ¬ isSentinel (JVal.str "12.34") ∧
    safe (JVal.str "12.34") (JVal.num 0) = JVal.str "12.34" :=
  ⟨by decide, safe_identity_on_non_sentinel (JVal.str "12.34") (JVal.num 0) (by decide)⟩

/-- Claim C8: every sanitized record carries a present (non-null)
created_at equal to the normalization instant, with no precondition on
the input record; hence every committed row contains that instant. -/
theorem created_at_always_stamped (device : List (String × JVal)) (now : DateTime) :
    List.lookup "created_at" (sanitize device now) = some (SVal.ts (some now)) ∧
    ∀ row, upsert_device device now = some row → SVal.ts (some now) ∈ row := by
  refine ⟨sanitize_lookup_created device now, fun row hrow => ?_⟩
  have hmem : "created_at" ∈ requiredColumns := by decide
  obtain ⟨b, hb, hbr⟩ := mapM_some_mem hrow hmem
  rw [sanitize_lookup_created device now] at hb
  obtain rfl : SVal.ts (some now) = b := by injection hb
  exact hbr

/-- Claim C8 witness: the committed row of a complete record contains
the ingestion instant. -/
theorem created_at_always_stamped_w : SVal.ts (some now0) ∈ row0 :=
  (created_at_always_stamped fullDevice now0).2 row0 (by rfl)

/-- Claim C9: the health handler is a constant function: it answers 200
with exactly the fixed payload, independent of any state. -/
theorem health_constant :
    (∀ u : Unit, health u =
       ⟨200, [("status", "ok"), ("service", "vizvolt-ingestion")]⟩) ∧
    (∀ u v : Unit, health u = health v) :=
  ⟨fun _ => rfl, fun _ _ => rfl⟩

/-- Claim C10: a 2xx response whose JSON body has no "data" field makes
the fetcher return the empty list (no exception), so the tick performs
zero insert attempts, closes its connection, and is not a failed tick. -/
theorem missing_data_key_yields_empty (status : Nat) (b : ApiBody) (now : DateTime)
    (h2xx : 200 ≤ status ∧ status < 300)
    (hno : List.lookup "data" b.fields = none) :
    fetch_api_data (FetchEnv.response status (some b)) = Except.ok [] ∧
    tick (TickEnv.conn (FetchEnv.response status (some b))) now =
      ⟨TickOutcome.processed [], [ConnEvent.opened, ConnEvent.closed], 10⟩ := by
  have hst : ¬ (400 ≤ status ∧ status < 600) := by omega
  have hfetch : fetch_api_data (FetchEnv.response status (some b)) = Except.ok [] := by
    simp [fetch_api_data, hst, hno]
  exact ⟨hfetch, by simp [tick, hfetch]⟩

/-- Claim C10 witness: a 200 response with an empty JSON object body
yields an empty, successful tick. -/
theorem missing_data_key_yields_empty_w :
    fetch_api_data (FetchEnv.response 200 (some ⟨[]⟩)) = Except.ok [] ∧
    tick (TickEnv.conn (FetchEnv.response 200 (some ⟨[]⟩))) now0 =
      ⟨TickOutcome.processed [], [ConnEvent.opened, ConnEvent.closed], 10⟩ :=
  missing_data_key_yields_empty 200 ⟨[]⟩ now0 (by decide) (by rfl)

end Vizvolt
